import Mathlib

/-!
# Verification of the libpak-tools document patcher and dependency updater

Shallow embedding of the core logic of `paketo-buildpacks/libpak-tools`:

* the TOML document patcher (`internal/toml.go`: `UpdateTOMLFile`,
  `MultiUpdateTOMLFILE`), including its leading-comment preservation scan;
* the dependency record updater (`carton` package:
  `BuildModuleDependency.Update`, `dependencyArch`, `archFromPURL`,
  `updateChecksum`, `updateSourceChecksum`, `updatePURL`);
* the vendor filter (`RemoveDependenciesUnlessInVendorList`).

Decoded TOML documents (`map[string]interface{}` in Go) are modelled as
association lists from strings to a tree of TOML values; Go map lookup and
assignment become `lookupKey` and `setKey` (replace-first-or-append, which
coincides with Go map semantics on the duplicate-free lists produced by
decoding).  The `regexp` library is abstracted: a compiled pattern becomes a
matching function `String → Bool` or a replacement function
`String → String`, and `regexp.Compile` failure becomes an `Option` of such a
function.  The one regex that is a fixed constant in the source,
`arch=(.*)`, is embedded concretely (leftmost occurrence of the literal
`arch=`, then a greedy capture running to the end of the line).  File-system
effects are modelled by explicit state passing over a `FileSys` record
holding the file content and its permission bits.
-/

namespace LibpakTools

/-- A decoded TOML value, the model of Go's `interface{}` as produced by
`toml.Unmarshal` into `map[string]interface{}`: strings, booleans, arrays
and tables are the shapes the verified code inspects. -/
inductive TVal where
  | s : String → TVal
  | b : Bool → TVal
  | arr : List TVal → TVal
  | tbl : List (String × TVal) → TVal

/-- A decoded table / record: Go's `map[string]interface{}`. -/
abbrev Rec := List (String × TVal)

/-- A whole decoded document (`md` in the source). -/
abbrev Doc := Rec

/-- Go map read `v, found := m[k]`: first binding of the key wins. -/
def lookupKey : Rec → String → Option TVal
  | [], _ => none
  | (k2, v) :: rest, k => if k2 = k then some v else lookupKey rest k

/-- Go map write `m[k] = v`: replace the binding if present, else add one. -/
def setKey : Rec → String → TVal → Rec
  | [], k, v => [(k, v)]
  | (k2, w) :: rest, k, v =>
    if k2 = k then (k, v) :: rest else (k2, w) :: setKey rest k v

/-- The two-step Go idiom `raw, found := m[k]; s, ok := raw.(string)`:
the string value of the key, if present with a string value. -/
def getStr (r : Rec) (k : String) : Option String :=
  match lookupKey r k with
  | some (TVal.s s) => some s
  | _ => none

/-- The Go cast `x.([]map[string]interface{})`: every element of the decoded
array must be a table. -/
def asTables : List TVal → Option (List Rec)
  | [] => some []
  | TVal.tbl r :: rest => (asTables rest).map (fun l => r :: l)
  | _ => none

/-! ## `carton`: architecture derivation (`dependencyArch`, `archFromPURL`) -/

/-- `defaultArch` constant from the source. -/
def defaultArch : String := "amd64"

/-- The capture of the fixed regex `arch=(.*)` (package-level constant
`purlArchExp`): at the leftmost occurrence of the literal `arch=`, the greedy
`(.*)` captures the remainder of that line (`.` does not cross a newline).
`none` when the literal does not occur. -/
def findArchCapture : List Char → Option (List Char)
  | [] => none
  | c :: rest =>
    if (c :: rest).take 5 = ['a', 'r', 'c', 'h', '='] then
      some (((c :: rest).drop 5).takeWhile (fun x => x ≠ '\n'))
    else
      findArchCapture rest

/-- `purlArchExp.FindStringSubmatch purl` reduced to its capture group. -/
def archCapture (purl : String) : Option String :=
  (findArchCapture purl.data).map String.mk

/-- `archFromPURL`: the capture of `arch=(.*)` when the regex matches, the
default architecture otherwise. -/
def archFromPURL (purl : String) : String :=
  match archCapture purl with
  | some a => a
  | none => defaultArch

/-- The loop over the `purls` array inside `dependencyArch`: the first string
entry whose `archFromPURL` is non-empty decides; otherwise the default. -/
def archFromPurlsList : List TVal → String
  | [] => defaultArch
  | TVal.s u :: rest =>
    if archFromPURL u ≠ "" then archFromPURL u else archFromPurlsList rest
  | _ :: rest => archFromPurlsList rest

/-- `dependencyArch`: explicit string `arch` field first; else, when `purl`
is a string, its `archFromPURL`; else, when `purls` is an array, the scan
`archFromPurlsList`; else the default architecture. -/
def dependencyArch (dep : Rec) : String :=
  match lookupKey dep "arch" with
  | some (TVal.s a) => a
  | _ =>
    match lookupKey dep "purl" with
    | some (TVal.s p) => archFromPURL p
    | _ =>
      match lookupKey dep "purls" with
      | some (TVal.arr l) => archFromPurlsList l
      | _ => defaultArch

/-! ## `carton`: checksum, purl and cpe field updates -/

/-- `updateChecksum`: legacy `sha256` key wins and is overwritten bare
(returns `false` = old format); else a `checksum` key is overwritten with a
`sha256:` prefix (returns `true` = new format); else nothing is written. -/
def updateChecksum (dep : Rec) (sha256 : String) : Rec × Bool :=
  if (lookupKey dep "sha256").isSome then
    (setKey dep "sha256" (TVal.s sha256), false)
  else if (lookupKey dep "checksum").isSome then
    (setKey dep "checksum" (TVal.s ("sha256:" ++ sha256)), true)
  else
    (dep, false)

/-- `updateSourceChecksum`: nothing when no source checksum is supplied;
otherwise `source-checksum` with a `sha256:` prefix in the new format and
bare `source-sha256` in the old one. -/
def updateSourceChecksum (dep : Rec) (sourceSHA256 : String) (newFormat : Bool) : Rec :=
  if sourceSHA256 = "" then dep
  else if newFormat then
    setKey dep "source-checksum" (TVal.s ("sha256:" ++ sourceSHA256))
  else
    setKey dep "source-sha256" (TVal.s sourceSHA256)

/-- The element-wise regex replacement applied to string entries of an array
(`purls` and `cpes` loops); non-string entries are left alone. -/
def replaceStrings (repl : String → String) (l : List TVal) : List TVal :=
  l.map fun v =>
    match v with
    | TVal.s str => TVal.s (repl str)
    | x => x

/-- `updatePURL`: regex-replace a string `purl`, else every string entry of
an array `purls`, else nothing.  The compiled `purlExp.ReplaceAllString`
with the new PURL template is abstracted as `repl`. -/
def updatePURL (dep : Rec) (repl : String → String) : Rec :=
  match lookupKey dep "purl" with
  | some (TVal.s p) => setKey dep "purl" (TVal.s (repl p))
  | _ =>
    match lookupKey dep "purls" with
    | some (TVal.arr purls) => setKey dep "purls" (TVal.arr (replaceStrings repl purls))
    | _ => dep

/-- The `cpes` loop of `BuildModuleDependency.Update`: regex-replace every
string entry of an array `cpes`; other shapes are left alone. -/
def updateCPEs (dep : Rec) (repl : String → String) : Rec :=
  match lookupKey dep "cpes" with
  | some (TVal.arr cpes) => setKey dep "cpes" (TVal.arr (replaceStrings repl cpes))
  | _ => dep

/-! ## `carton`: per-record update and `BuildModuleDependency.Update` -/

/-- The `BuildModuleDependency` parameter struct.  The three regex pattern
strings stay in the struct as in the source; their compiled behaviours are
passed separately as functions. -/
structure BuildModuleDependency where
  BuildModulePath : String
  ID : String
  Arch : String
  SHA256 : String
  URI : String
  Version : String
  VersionPattern : String
  CPE : String
  CPEPattern : String
  PURL : String
  PURLPattern : String
  Source : String
  SourceSHA256 : String
  EolID : String

/-- Steps 1-6 of the matched-record branch of `BuildModuleDependency.Update`
(version, uri, checksum, source checksum, source, purl, cpes), paired with
the `newFormat` flag returned by `updateChecksum`. -/
def applyFieldUpdates (b : BuildModuleDependency) (purlRepl cpeRepl : String → String)
    (dep : Rec) : Rec × Bool :=
  let dep1 := setKey dep "version" (TVal.s b.Version)
  let dep2 := setKey dep1 "uri" (TVal.s b.URI)
  let p := updateChecksum dep2 b.SHA256
  let dep3 := updateSourceChecksum p.1 b.SourceSHA256 p.2
  let dep4 := if b.Source ≠ "" then setKey dep3 "source" (TVal.s b.Source) else dep3
  let dep5 := updatePURL dep4 purlRepl
  let dep6 := updateCPEs dep5 cpeRepl
  (dep6, p.2)

/-- Step 7 appended to steps 1-6: the end-of-life lookup and conditional
write of `eol-date` (new format) or `deprecation_date` (old format), as
performed for a record that passed the id, architecture and version-pattern
checks.  An `Except.error` is the path on which `Update` reports the lookup
failure to the exit handler and returns. -/
def matchedUpdate (b : BuildModuleDependency) (purlRepl cpeRepl : String → String)
    (eol : String → String → Except String String) (dep : Rec) : Except String Rec :=
  let p := applyFieldUpdates b purlRepl cpeRepl dep
  if b.EolID ≠ "" then
    match eol b.EolID b.Version with
    | Except.error e => Except.error e
    | Except.ok eolDate =>
      if eolDate ≠ "" then
        Except.ok (setKey p.1 (if p.2 then "eol-date" else "deprecation_date")
          (TVal.s eolDate))
      else Except.ok p.1
  else Except.ok p.1

/-- The body of the `for _, dep := range dependencies` loop of
`BuildModuleDependency.Update` for one record.  `vMatch` is the compiled
`versionExp.MatchString`, `purlRepl`/`cpeRepl` the compiled
`ReplaceAllString` closures, `eol` the `internal.GetEolDate` collaborator. -/
def updateDep (b : BuildModuleDependency) (vMatch : String → Bool)
    (purlRepl cpeRepl : String → String) (eol : String → String → Except String String)
    (dep : Rec) : Except String Rec :=
  match getStr dep "id" with
  | none => Except.ok dep
  | some depID =>
    if depID = b.ID ∧ dependencyArch dep = b.Arch then
      match getStr dep "version" with
      | none => Except.ok dep
      | some depVersion =>
        if vMatch depVersion then matchedUpdate b purlRepl cpeRepl eol dep
        else Except.ok dep
    else Except.ok dep

/-- The guard of the matched-record branch: the record carries a string
`id` equal to the target, its derived architecture equals the target, and
its string `version` satisfies the compiled version pattern. -/
def depMatched (b : BuildModuleDependency) (vMatch : String → Bool) (dep : Rec) : Bool :=
  match getStr dep "id" with
  | some depID =>
    decide (depID = b.ID) && decide (dependencyArch dep = b.Arch) &&
    (match getStr dep "version" with
     | some depVersion => vMatch depVersion
     | none => false)
  | none => false

/-! ## Leading-comment scan (shared by `internal/toml.go` and `carton`) -/

/-- `bytes.SplitAfter(c, "\n")` on characters: split after every newline,
keeping the separators; splitting the empty input yields one empty piece. -/
def splitAfterNl : List Char → List (List Char)
  | [] => [[]]
  | c :: rest =>
    if c = '\n' then [c] :: splitAfterNl rest
    else
      match splitAfterNl rest with
      | [] => [[c]]
      | l :: ls => (c :: l) :: ls

/-- Go's `unicode.IsSpace` on the characters that matter here. -/
def isSpaceGo (c : Char) : Bool :=
  c == ' ' || c == '\t' || c == '\n' || c == '\x0b' || c == '\x0c' || c == '\r' ||
  c == '\u0085' || c == '\u00a0'

/-- `len(bytes.TrimSpace(line)) == 0`: the line is all whitespace. -/
def blankLine (line : List Char) : Bool :=
  line.all isSpaceGo

/-- The loop condition of the comment scan: a line belongs to the preserved
prefix when it starts with `#`, or is blank and is not the very first
line. -/
def commentLine (i : Nat) (line : List Char) : Bool :=
  decide (line.take 1 = ['#']) || (decide (0 < i) && blankLine line)

/-- The comment scan itself: consecutive qualifying lines from position `i`
on, stopping at the first line that does not qualify. -/
def leadingCommentLines (i : Nat) : List (List Char) → List (List Char)
  | [] => []
  | l :: rest =>
    if commentLine i l then l :: leadingCommentLines (i + 1) rest
    else []

/-- The saved `comments` byte prefix of a file content. -/
def leadingComments (c : String) : String :=
  String.mk (leadingCommentLines 0 (splitAfterNl c.data)).flatten

/-! ## `internal/toml.go`: the document patcher over an explicit file state -/

/-- On-disk state of the one target file: its content and permission bits. -/
structure FileSys where
  content : String
  mode : Nat

/-- The file operations `UpdateTOMLFile` performs, in order, for trace
accounting. -/
inductive FOp where
  | statOp
  | readOp
  | decodeOp
  | encodeOp
  | writeOp
deriving DecidableEq

/-- `UpdateTOMLFile` with its operation trace: stat (capturing the mode),
read, comment scan, decode, one mutation function, encode, write of
comments ++ body under the original mode.  `decode`/`encode` abstract
`toml.Unmarshal`/`utils.Marshal` with their failure cases. -/
def updateTOMLFileT (decode : String → Option Doc) (encode : Doc → Option String)
    (f : Doc → Doc) (fs : FileSys) : Except String FileSys × List FOp :=
  let c := fs.content
  match decode c with
  | none => (Except.error "unable to decode md", [FOp.statOp, FOp.readOp, FOp.decodeOp])
  | some md =>
    match encode (f md) with
    | none =>
      (Except.error "unable to encode md",
       [FOp.statOp, FOp.readOp, FOp.decodeOp, FOp.encodeOp])
    | some body =>
      (Except.ok { content := leadingComments c ++ body, mode := fs.mode },
       [FOp.statOp, FOp.readOp, FOp.decodeOp, FOp.encodeOp, FOp.writeOp])

/-- `UpdateTOMLFile` without the trace. -/
def updateTOMLFile (decode : String → Option Doc) (encode : Doc → Option String)
    (f : Doc → Doc) (fs : FileSys) : Except String FileSys :=
  (updateTOMLFileT decode encode f fs).1

/-- `MultiUpdateTOMLFILE` on a single path: one `UpdateTOMLFile` call per
mutation function, stopping at the first failure, with the concatenated
operation trace. -/
def multiUpdateTOMLFileT (decode : String → Option Doc) (encode : Doc → Option String) :
    List (Doc → Doc) → FileSys → Except String FileSys × List FOp
  | [], fs => (Except.ok fs, [])
  | f :: fns, fs =>
    match updateTOMLFileT decode encode f fs with
    | (Except.error e, ops) => (Except.error e, ops)
    | (Except.ok fs2, ops) =>
      let r := multiUpdateTOMLFileT decode encode fns fs2
      (r.1, ops ++ r.2)

/-- The `for _, dep := range dependencies` loop itself: every record is fed
to `updateDep` in order; the first end-of-life lookup failure aborts the
whole run. -/
def updateDeps (b : BuildModuleDependency) (vMatch : String → Bool)
    (purlRepl cpeRepl : String → String) (eol : String → String → Except String String) :
    List Rec → Except String (List Rec)
  | [] => Except.ok []
  | dep :: rest =>
    match updateDep b vMatch purlRepl cpeRepl eol dep with
    | Except.error e => Except.error e
    | Except.ok d =>
      match updateDeps b vMatch purlRepl cpeRepl eol rest with
      | Except.error e => Except.error e
      | Except.ok ds => Except.ok (d :: ds)

/-- External collaborators and effect outcomes of one
`BuildModuleDependency.Update` run: the three `regexp.Compile` results
(`none` = compile error), whether `os.ReadFile` succeeds, the
decoder/encoder, and the `internal.GetEolDate` collaborator. -/
structure UpdateEnv where
  compileVersion : Option (String → Bool)
  compileCpe : Option (String → String)
  compilePurl : Option (String → String)
  readOk : Bool
  decode : String → Option Doc
  encode : Doc → Option String
  eol : String → String → Except String String

/-- `BuildModuleDependency.Update` as a state transformer on the build
module file: the result is the final file state (unchanged whenever an
error is reported) paired with the message passed to the exit handler,
when any.  Mirrors the source order: compile the three patterns, read,
scan leading comments, decode, unwrap and cast `metadata` then
`dependencies`, run the per-record loop (aborting the whole run on an
end-of-life lookup failure), re-encode, and write via `os.WriteFile` with
permission argument `0644`.  The file was just read, so it exists, and
`os.WriteFile` only truncates an existing file without changing its
permissions: the `0644` argument is ignored and the on-disk mode stays
what it was. -/
def bmdUpdate (b : BuildModuleDependency) (env : UpdateEnv) (fs : FileSys) :
    FileSys × Option String :=
  match env.compileVersion with
  | none => (fs, some "unable to compile version regex")
  | some vMatch =>
  match env.compileCpe with
  | none => (fs, some "unable to compile cpe regex")
  | some cpeRepl =>
  match env.compilePurl with
  | none => (fs, some "unable to compile purl regex")
  | some purlRepl =>
  if !env.readOk then (fs, some "unable to read") else
  let c := fs.content
  let comments := leadingComments c
  match env.decode c with
  | none => (fs, some "unable to decode md")
  | some md =>
  match lookupKey md "metadata" with
  | none => (fs, some "unable to find metadata block")
  | some (TVal.tbl metadata) =>
    match lookupKey metadata "dependencies" with
    | none => (fs, some "unable to find dependencies block")
    | some (TVal.arr depsRaw) =>
      match asTables depsRaw with
      | none => (fs, some "unable to cast dependencies")
      | some deps =>
        match updateDeps b vMatch purlRepl cpeRepl env.eol deps with
        | Except.error _ => (fs, some "unable to fetch deprecation_date")
        | Except.ok deps2 =>
          let md2 := setKey md "metadata"
            (TVal.tbl (setKey metadata "dependencies" (TVal.arr (deps2.map TVal.tbl))))
          match env.encode md2 with
          | none => (fs, some "unable to encode md")
          | some body => ({ content := comments ++ body, mode := fs.mode }, none)
    | some _ => (fs, some "unable to cast dependencies")
  | some _ => (fs, some "unable to cast metadata")

/-! ## Vendor filtering (`RemoveDependenciesUnlessInVendorList`) -/

/-- Go's `strings.HasSuffix`, modelled on characters. -/
def hasSuffixGo (s post : String) : Bool :=
  post.data.isSuffixOf s.data

/-- The inner vendor loop: `strings.HasSuffix(depID, "-"+vendor)` for some
vendor of the allow-list, with a record lacking a string `id` skipped. -/
def vendorKeep (vendors : List String) (dep : Rec) : Bool :=
  match getStr dep "id" with
  | some depID => vendors.any (fun vendor => hasSuffixGo depID ("-" ++ vendor))
  | none => false

/-- The `newDeps` accumulation loop of
`RemoveDependenciesUnlessInVendorList`, at the dependency-list level. -/
def removeDepsUnlessVendor (vendors : List String) : List Rec → List Rec
  | [] => []
  | dep :: rest =>
    if vendorKeep vendors dep then dep :: removeDepsUnlessVendor vendors rest
    else removeDepsUnlessVendor vendors rest

/-- `RemoveDependenciesUnlessInVendorList` as a document mutation: unwrap
and cast `metadata` then `dependencies` (returning the document unchanged
when either fails, as the source only prints and returns), filter, and
store the filtered list back. -/
def removeDependenciesUnlessInVendorList (vendors : List String) (doc : Doc) : Doc :=
  match lookupKey doc "metadata" with
  | some (TVal.tbl metadata) =>
    match lookupKey metadata "dependencies" with
    | some (TVal.arr depsRaw) =>
      match asTables depsRaw with
      | some deps =>
        setKey doc "metadata"
          (TVal.tbl (setKey metadata "dependencies"
            (TVal.arr ((removeDepsUnlessVendor vendors deps).map TVal.tbl))))
      | none => doc
    | _ => doc
  | _ => doc

/-! ## Helper lemmas about map reads and writes -/

theorem lookupKey_setKey_same (r : Rec) (k : String) (v : TVal) :
    lookupKey (setKey r k v) k = some v := by
  induction r with
  | nil => simp [setKey, lookupKey]
  | cons p rest ih =>
    obtain ⟨k2, w⟩ := p
    by_cases h : k2 = k
    · simp [setKey, h, lookupKey]
    · simp [setKey, h, lookupKey, ih]

theorem lookupKey_setKey_ne (r : Rec) (k kq : String) (v : TVal) (h : kq ≠ k) :
    lookupKey (setKey r k v) kq = lookupKey r kq := by
  induction r with
  | nil => simp [setKey, lookupKey, Ne.symm h]
  | cons p rest ih =>
    obtain ⟨k2, w⟩ := p
    by_cases h2 : k2 = k
    · subst h2
      simp [setKey, lookupKey, Ne.symm h]
    · simp [setKey, h2, lookupKey, ih]

theorem lookupKey_updateChecksum_ne (dep : Rec) (v : String) (kq : String)
    (h1 : kq ≠ "sha256") (h2 : kq ≠ "checksum") :
    lookupKey (updateChecksum dep v).1 kq = lookupKey dep kq := by
  unfold updateChecksum
  by_cases hs : (lookupKey dep "sha256").isSome
  · simp [hs, lookupKey_setKey_ne _ _ _ _ h1]
  · by_cases hc : (lookupKey dep "checksum").isSome
    · simp [hs, hc, lookupKey_setKey_ne _ _ _ _ h2]
    · simp [hs, hc]

theorem updateChecksum_flag (dep : Rec) (v : String) :
    (updateChecksum dep v).2 =
      (!(lookupKey dep "sha256").isSome && (lookupKey dep "checksum").isSome) := by
  unfold updateChecksum
  by_cases hs : (lookupKey dep "sha256").isSome
  · simp [hs]
  · by_cases hc : (lookupKey dep "checksum").isSome
    · simp [hs, hc]
    · simp [hs, hc]

theorem lookupKey_updateSourceChecksum_ne (dep : Rec) (s : String) (nf : Bool) (kq : String)
    (h1 : kq ≠ "source-sha256") (h2 : kq ≠ "source-checksum") :
    lookupKey (updateSourceChecksum dep s nf) kq = lookupKey dep kq := by
  unfold updateSourceChecksum
  by_cases he : s = ""
  · simp [he]
  · cases nf <;>
      simp [he, lookupKey_setKey_ne _ _ _ _ h1, lookupKey_setKey_ne _ _ _ _ h2]

theorem lookupKey_updatePURL_ne (dep : Rec) (repl : String → String) (kq : String)
    (h1 : kq ≠ "purl") (h2 : kq ≠ "purls") :
    lookupKey (updatePURL dep repl) kq = lookupKey dep kq := by
  unfold updatePURL
  have hset2 : ∀ l, lookupKey (setKey dep "purls" (TVal.arr (replaceStrings repl l))) kq =
      lookupKey dep kq := fun l => lookupKey_setKey_ne _ _ _ _ h2
  cases hp : lookupKey dep "purl" with
  | none =>
    cases hps : lookupKey dep "purls" with
    | none => simp
    | some w => cases w <;> simp [hset2]
  | some w =>
    cases w with
    | s p => simp [lookupKey_setKey_ne _ _ _ _ h1]
    | b x =>
      cases hps : lookupKey dep "purls" with
      | none => simp
      | some w2 => cases w2 <;> simp [hset2]
    | arr l =>
      cases hps : lookupKey dep "purls" with
      | none => simp
      | some w2 => cases w2 <;> simp [hset2]
    | tbl t =>
      cases hps : lookupKey dep "purls" with
      | none => simp
      | some w2 => cases w2 <;> simp [hset2]

theorem lookupKey_updateCPEs_ne (dep : Rec) (repl : String → String) (kq : String)
    (h : kq ≠ "cpes") :
    lookupKey (updateCPEs dep repl) kq = lookupKey dep kq := by
  unfold updateCPEs
  cases hc : lookupKey dep "cpes" with
  | none => simp
  | some w => cases w <;> simp [lookupKey_setKey_ne _ _ _ _ h]

theorem lookupKey_setKey_setKey_vu (dep : Rec) (v1 v2 : TVal) (kq : String)
    (h1 : kq ≠ "version") (h2 : kq ≠ "uri") :
    lookupKey (setKey (setKey dep "version" v1) "uri" v2) kq = lookupKey dep kq := by
  rw [lookupKey_setKey_ne _ _ _ _ h2, lookupKey_setKey_ne _ _ _ _ h1]

theorem lookupKey_applyFieldUpdates_after_source (b : BuildModuleDependency)
    (pr cr : String → String) (dep : Rec) (kq : String)
    (h5 : kq ≠ "source") (h6 : kq ≠ "purl") (h7 : kq ≠ "purls") (h8 : kq ≠ "cpes") :
    lookupKey (applyFieldUpdates b pr cr dep).1 kq =
      lookupKey (updateSourceChecksum
        (updateChecksum (setKey (setKey dep "version" (TVal.s b.Version)) "uri"
          (TVal.s b.URI)) b.SHA256).1 b.SourceSHA256
        (updateChecksum (setKey (setKey dep "version" (TVal.s b.Version)) "uri"
          (TVal.s b.URI)) b.SHA256).2) kq := by
  simp only [applyFieldUpdates]
  rw [lookupKey_updateCPEs_ne _ _ _ h8, lookupKey_updatePURL_ne _ _ _ h6 h7]
  by_cases hsrc : b.Source = ""
  · simp [hsrc]
  · simp [hsrc, lookupKey_setKey_ne _ _ _ _ h5]

theorem lookupKey_applyFieldUpdates_ne (b : BuildModuleDependency)
    (pr cr : String → String) (dep : Rec) (kq : String)
    (hv : kq ≠ "version") (hu : kq ≠ "uri")
    (h1 : kq ≠ "sha256") (h2 : kq ≠ "checksum")
    (h3 : kq ≠ "source-sha256") (h4 : kq ≠ "source-checksum") (h5 : kq ≠ "source")
    (h6 : kq ≠ "purl") (h7 : kq ≠ "purls") (h8 : kq ≠ "cpes") :
    lookupKey (applyFieldUpdates b pr cr dep).1 kq = lookupKey dep kq := by
  rw [lookupKey_applyFieldUpdates_after_source _ _ _ _ _ h5 h6 h7 h8,
      lookupKey_updateSourceChecksum_ne _ _ _ _ h3 h4,
      lookupKey_updateChecksum_ne _ _ _ h1 h2,
      lookupKey_setKey_setKey_vu _ _ _ _ hv hu]

theorem applyFieldUpdates_flag (b : BuildModuleDependency) (pr cr : String → String)
    (dep : Rec) :
    (applyFieldUpdates b pr cr dep).2 =
      (!(lookupKey dep "sha256").isSome && (lookupKey dep "checksum").isSome) := by
  simp only [applyFieldUpdates, updateChecksum_flag]
  rw [lookupKey_setKey_setKey_vu _ _ _ _ (by decide) (by decide),
      lookupKey_setKey_setKey_vu _ _ _ _ (by decide) (by decide)]

theorem applyFieldUpdates_version (b : BuildModuleDependency) (pr cr : String → String)
    (dep : Rec) :
    lookupKey (applyFieldUpdates b pr cr dep).1 "version" = some (TVal.s b.Version) := by
  rw [lookupKey_applyFieldUpdates_after_source _ _ _ _ _ (by decide) (by decide)
        (by decide) (by decide),
      lookupKey_updateSourceChecksum_ne _ _ _ _ (by decide) (by decide),
      lookupKey_updateChecksum_ne _ _ _ (by decide) (by decide),
      lookupKey_setKey_ne _ _ _ _ (by decide), lookupKey_setKey_same]

theorem applyFieldUpdates_uri (b : BuildModuleDependency) (pr cr : String → String)
    (dep : Rec) :
    lookupKey (applyFieldUpdates b pr cr dep).1 "uri" = some (TVal.s b.URI) := by
  rw [lookupKey_applyFieldUpdates_after_source _ _ _ _ _ (by decide) (by decide)
        (by decide) (by decide),
      lookupKey_updateSourceChecksum_ne _ _ _ _ (by decide) (by decide),
      lookupKey_updateChecksum_ne _ _ _ (by decide) (by decide),
      lookupKey_setKey_same]

theorem updateDep_unmatched (b : BuildModuleDependency) (vMatch : String → Bool)
    (pr cr : String → String) (eol : String → String → Except String String) (dep : Rec)
    (h : depMatched b vMatch dep = false) :
    updateDep b vMatch pr cr eol dep = Except.ok dep := by
  unfold depMatched at h
  cases hid : getStr dep "id" with
  | none => simp [updateDep, hid]
  | some depID =>
    rw [hid] at h
    cases hv : getStr dep "version" with
    | none =>
      by_cases hm : depID = b.ID ∧ dependencyArch dep = b.Arch
      · simp [updateDep, hid, hv, hm]
      · simp [updateDep, hid, hv, hm]
    | some depVersion =>
      rw [hv] at h
      by_cases hm : depID = b.ID ∧ dependencyArch dep = b.Arch
      · simp only [hm.1, hm.2, decide_True, Bool.true_and] at h
        simp [updateDep, hid, hv, hm, h]
      · simp [updateDep, hid, hv, hm]

theorem updateDep_matched (b : BuildModuleDependency) (vMatch : String → Bool)
    (pr cr : String → String) (eol : String → String → Except String String) (dep : Rec)
    (h : depMatched b vMatch dep = true) :
    updateDep b vMatch pr cr eol dep = matchedUpdate b pr cr eol dep := by
  unfold depMatched at h
  cases hid : getStr dep "id" with
  | none => rw [hid] at h; simp at h
  | some depID =>
    rw [hid] at h
    cases hv : getStr dep "version" with
    | none => rw [hv] at h; simp at h
    | some depVersion =>
      rw [hv] at h
      simp only [Bool.and_eq_true, decide_eq_true_eq] at h
      obtain ⟨⟨h1, h2⟩, h3⟩ := h
      simp [updateDep, hid, hv, h1, h2, h3]

theorem lookupKey_updateSourceChecksum_srcck (u : Rec) (s : String) :
    lookupKey (updateSourceChecksum u s false) "source-checksum" =
      lookupKey u "source-checksum" := by
  unfold updateSourceChecksum
  by_cases hsrc : s = ""
  · simp [hsrc]
  · simp only [hsrc, if_false, Bool.false_eq_true, ite_false]
    exact lookupKey_setKey_ne u "source-sha256" "source-checksum" (TVal.s s) (by decide)

theorem lookupKey_updateSourceChecksum_srcsha (u : Rec) (s : String) :
    lookupKey (updateSourceChecksum u s true) "source-sha256" =
      lookupKey u "source-sha256" := by
  unfold updateSourceChecksum
  by_cases hsrc : s = ""
  · simp [hsrc]
  · simp only [hsrc, if_false, if_true, ite_true, ite_false]
    exact lookupKey_setKey_ne u "source-checksum" "source-sha256"
      (TVal.s ("sha256:" ++ s)) (by decide)

theorem updateSourceChecksum_old_write (u : Rec) (s : String) (hs : s ≠ "") :
    updateSourceChecksum u s false = setKey u "source-sha256" (TVal.s s) := by
  simp [updateSourceChecksum, hs]

theorem updateSourceChecksum_new_write (u : Rec) (s : String) (hs : s ≠ "") :
    updateSourceChecksum u s true = setKey u "source-checksum" (TVal.s ("sha256:" ++ s)) := by
  simp [updateSourceChecksum, hs]

/-- Core facts about steps 1-6 when the record carries the legacy `sha256`
key: it is overwritten bare, `checksum` and `source-checksum` are left as
they were, a supplied source checksum goes to `source-sha256` bare, and the
detected format is the old one. -/
theorem applyFieldUpdates_legacy (b : BuildModuleDependency) (pr cr : String → String)
    (dep : Rec) (hs : (lookupKey dep "sha256").isSome) :
    lookupKey (applyFieldUpdates b pr cr dep).1 "sha256" = some (TVal.s b.SHA256) ∧
    lookupKey (applyFieldUpdates b pr cr dep).1 "checksum" = lookupKey dep "checksum" ∧
    lookupKey (applyFieldUpdates b pr cr dep).1 "source-checksum" =
      lookupKey dep "source-checksum" ∧
    (b.SourceSHA256 ≠ "" →
      lookupKey (applyFieldUpdates b pr cr dep).1 "source-sha256" =
        some (TVal.s b.SourceSHA256)) ∧
    (applyFieldUpdates b pr cr dep).2 = false := by
  have hs2 : (lookupKey (setKey (setKey dep "version" (TVal.s b.Version)) "uri"
      (TVal.s b.URI)) "sha256").isSome := by
    rw [lookupKey_setKey_setKey_vu _ _ _ _ (by decide) (by decide)]; exact hs
  have huc : updateChecksum (setKey (setKey dep "version" (TVal.s b.Version)) "uri"
      (TVal.s b.URI)) b.SHA256 =
      (setKey (setKey (setKey dep "version" (TVal.s b.Version)) "uri" (TVal.s b.URI))
        "sha256" (TVal.s b.SHA256), false) := by
    unfold updateChecksum; simp [hs2]
  refine ⟨?_, ?_, ?_, ?_, ?_⟩
  · rw [lookupKey_applyFieldUpdates_after_source _ _ _ _ _ (by decide) (by decide)
        (by decide) (by decide)]
    simp only [huc]
    rw [lookupKey_updateSourceChecksum_ne _ _ _ _ (by decide) (by decide),
        lookupKey_setKey_same]
  · rw [lookupKey_applyFieldUpdates_after_source _ _ _ _ _ (by decide) (by decide)
        (by decide) (by decide)]
    simp only [huc]
    rw [lookupKey_updateSourceChecksum_ne _ _ _ _ (by decide) (by decide),
        lookupKey_setKey_ne _ _ _ _ (by decide),
        lookupKey_setKey_setKey_vu _ _ _ _ (by decide) (by decide)]
  · rw [lookupKey_applyFieldUpdates_after_source _ _ _ _ _ (by decide) (by decide)
        (by decide) (by decide)]
    simp only [huc]
    rw [lookupKey_updateSourceChecksum_srcck,
        lookupKey_setKey_ne _ _ _ _ (by decide),
        lookupKey_setKey_setKey_vu _ _ _ _ (by decide) (by decide)]
  · intro hsrc
    rw [lookupKey_applyFieldUpdates_after_source _ _ _ _ _ (by decide) (by decide)
        (by decide) (by decide)]
    simp only [huc]
    rw [updateSourceChecksum_old_write _ _ hsrc, lookupKey_setKey_same]
  · rw [applyFieldUpdates_flag]
    simp [hs]

/-- Core facts about steps 1-6 when the record carries the new `checksum`
key and no `sha256` key: `checksum` gets the `sha256:`-prefixed value,
`sha256` and `source-sha256` are left as they were, a supplied source
checksum goes to `source-checksum` with the prefix, and the detected format
is the new one. -/
theorem applyFieldUpdates_newFormat (b : BuildModuleDependency) (pr cr : String → String)
    (dep : Rec) (hs : lookupKey dep "sha256" = none)
    (hc : (lookupKey dep "checksum").isSome) :
    lookupKey (applyFieldUpdates b pr cr dep).1 "checksum" =
      some (TVal.s ("sha256:" ++ b.SHA256)) ∧
    lookupKey (applyFieldUpdates b pr cr dep).1 "sha256" = none ∧
    lookupKey (applyFieldUpdates b pr cr dep).1 "source-sha256" =
      lookupKey dep "source-sha256" ∧
    (b.SourceSHA256 ≠ "" →
      lookupKey (applyFieldUpdates b pr cr dep).1 "source-checksum" =
        some (TVal.s ("sha256:" ++ b.SourceSHA256))) ∧
    (applyFieldUpdates b pr cr dep).2 = true := by
  have hs2 : lookupKey (setKey (setKey dep "version" (TVal.s b.Version)) "uri"
      (TVal.s b.URI)) "sha256" = none := by
    rw [lookupKey_setKey_setKey_vu _ _ _ _ (by decide) (by decide)]; exact hs
  have hc2 : (lookupKey (setKey (setKey dep "version" (TVal.s b.Version)) "uri"
      (TVal.s b.URI)) "checksum").isSome := by
    rw [lookupKey_setKey_setKey_vu _ _ _ _ (by decide) (by decide)]; exact hc
  have huc : updateChecksum (setKey (setKey dep "version" (TVal.s b.Version)) "uri"
      (TVal.s b.URI)) b.SHA256 =
      (setKey (setKey (setKey dep "version" (TVal.s b.Version)) "uri" (TVal.s b.URI))
        "checksum" (TVal.s ("sha256:" ++ b.SHA256)), true) := by
    unfold updateChecksum; simp [hs2, hc2]
  refine ⟨?_, ?_, ?_, ?_, ?_⟩
  · rw [lookupKey_applyFieldUpdates_after_source _ _ _ _ _ (by decide) (by decide)
        (by decide) (by decide)]
    simp only [huc]
    rw [lookupKey_updateSourceChecksum_ne _ _ _ _ (by decide) (by decide),
        lookupKey_setKey_same]
  · rw [lookupKey_applyFieldUpdates_after_source _ _ _ _ _ (by decide) (by decide)
        (by decide) (by decide)]
    simp only [huc]
    rw [lookupKey_updateSourceChecksum_ne _ _ _ _ (by decide) (by decide),
        lookupKey_setKey_ne _ _ _ _ (by decide),
        lookupKey_setKey_setKey_vu _ _ _ _ (by decide) (by decide)]
    exact hs
  · rw [lookupKey_applyFieldUpdates_after_source _ _ _ _ _ (by decide) (by decide)
        (by decide) (by decide)]
    simp only [huc]
    rw [lookupKey_updateSourceChecksum_srcsha,
        lookupKey_setKey_ne _ _ _ _ (by decide),
        lookupKey_setKey_setKey_vu _ _ _ _ (by decide) (by decide)]
  · intro hsrc
    rw [lookupKey_applyFieldUpdates_after_source _ _ _ _ _ (by decide) (by decide)
        (by decide) (by decide)]
    simp only [huc]
    rw [updateSourceChecksum_new_write _ _ hsrc, lookupKey_setKey_same]
  · rw [applyFieldUpdates_flag]
    simp [hs, hc]

/-- Core facts about steps 1-6 when the record carries neither checksum
key: no checksum is written at all, a supplied source checksum still goes
to `source-sha256` bare, and the detected format is the old one. -/
theorem applyFieldUpdates_noChecksumKey (b : BuildModuleDependency)
    (pr cr : String → String) (dep : Rec)
    (hs : lookupKey dep "sha256" = none) (hc : lookupKey dep "checksum" = none) :
    lookupKey (applyFieldUpdates b pr cr dep).1 "sha256" = none ∧
    lookupKey (applyFieldUpdates b pr cr dep).1 "checksum" = none ∧
    (b.SourceSHA256 ≠ "" →
      lookupKey (applyFieldUpdates b pr cr dep).1 "source-sha256" =
        some (TVal.s b.SourceSHA256)) ∧
    (applyFieldUpdates b pr cr dep).2 = false := by
  have hs2 : lookupKey (setKey (setKey dep "version" (TVal.s b.Version)) "uri"
      (TVal.s b.URI)) "sha256" = none := by
    rw [lookupKey_setKey_setKey_vu _ _ _ _ (by decide) (by decide)]; exact hs
  have hc2 : lookupKey (setKey (setKey dep "version" (TVal.s b.Version)) "uri"
      (TVal.s b.URI)) "checksum" = none := by
    rw [lookupKey_setKey_setKey_vu _ _ _ _ (by decide) (by decide)]; exact hc
  have huc : updateChecksum (setKey (setKey dep "version" (TVal.s b.Version)) "uri"
      (TVal.s b.URI)) b.SHA256 =
      (setKey (setKey dep "version" (TVal.s b.Version)) "uri" (TVal.s b.URI), false) := by
    unfold updateChecksum; simp [hs2, hc2]
  refine ⟨?_, ?_, ?_, ?_⟩
  · rw [lookupKey_applyFieldUpdates_after_source _ _ _ _ _ (by decide) (by decide)
        (by decide) (by decide)]
    simp only [huc]
    rw [lookupKey_updateSourceChecksum_ne _ _ _ _ (by decide) (by decide),
        lookupKey_setKey_setKey_vu _ _ _ _ (by decide) (by decide)]
    exact hs
  · rw [lookupKey_applyFieldUpdates_after_source _ _ _ _ _ (by decide) (by decide)
        (by decide) (by decide)]
    simp only [huc]
    rw [lookupKey_updateSourceChecksum_ne _ _ _ _ (by decide) (by decide),
        lookupKey_setKey_setKey_vu _ _ _ _ (by decide) (by decide)]
    exact hc
  · intro hsrc
    rw [lookupKey_applyFieldUpdates_after_source _ _ _ _ _ (by decide) (by decide)
        (by decide) (by decide)]
    simp only [huc]
    rw [updateSourceChecksum_old_write _ _ hsrc, lookupKey_setKey_same]
  · rw [applyFieldUpdates_flag]
    simp [hs, hc]

/-- When `matchedUpdate` succeeds, its output record differs from the
steps-1-6 record at most at the two end-of-life keys. -/
theorem matchedUpdate_ok_lookup (b : BuildModuleDependency) (pr cr : String → String)
    (eol : String → String → Except String String) (dep r : Rec) (kq : String)
    (h : matchedUpdate b pr cr eol dep = Except.ok r)
    (h1 : kq ≠ "eol-date") (h2 : kq ≠ "deprecation_date") :
    lookupKey r kq = lookupKey (applyFieldUpdates b pr cr dep).1 kq := by
  simp only [matchedUpdate] at h
  by_cases he : b.EolID = ""
  · simp [he] at h
    rw [← h]
  · simp only [he, if_true, ne_eq, not_false_eq_true] at h
    cases hres : eol b.EolID b.Version with
    | error e => rw [hres] at h; simp at h
    | ok d =>
      rw [hres] at h
      by_cases hd : d = ""
      · simp [hd] at h
        rw [← h]
      · simp only [hd, ne_eq, not_false_eq_true, if_true, Except.ok.injEq] at h
        rw [← h]
        by_cases hfmt : (applyFieldUpdates b pr cr dep).2 = true
        · rw [if_pos hfmt, lookupKey_setKey_ne _ _ _ _ h1]
        · rw [if_neg hfmt, lookupKey_setKey_ne _ _ _ _ h2]

/-- When `matchedUpdate` succeeds with a supplied end-of-life id and a
non-empty looked-up date, the output record is the steps-1-6 record with
the date written under the format-selected end-of-life key. -/
theorem matchedUpdate_eol_write (b : BuildModuleDependency) (pr cr : String → String)
    (eol : String → String → Except String String) (dep r : Rec) (d : String)
    (h : matchedUpdate b pr cr eol dep = Except.ok r)
    (he : b.EolID ≠ "") (hd : eol b.EolID b.Version = Except.ok d) (hne : d ≠ "") :
    r = setKey (applyFieldUpdates b pr cr dep).1
      (if (applyFieldUpdates b pr cr dep).2 then "eol-date" else "deprecation_date")
      (TVal.s d) := by
  simp only [matchedUpdate, he, ne_eq, not_false_eq_true, if_true] at h
  rw [hd] at h
  simp only [hne, ne_eq, not_false_eq_true, if_true, Except.ok.injEq] at h
  exact h.symm

/-! ## Claim theorems -/

/-- C3: a dependency record whose string `id` is missing, or differs from
the target id, or whose derived architecture differs from the target
architecture, or whose string `version` is missing or fails the version
pattern, is left completely unchanged by the update; in particular, in a
two-record list where only the first record can be matched, a successful
pass leaves the second record field-for-field identical. -/
theorem update_skips_unmatched_records (b : BuildModuleDependency)
    (vMatch : String → Bool) (pr cr : String → String)
    (eol : String → String → Except String String) (d1 d2 : Rec)
    (h : getStr d2 "id" = none ∨
         (∃ i, getStr d2 "id" = some i ∧ i ≠ b.ID) ∨
         dependencyArch d2 ≠ b.Arch ∨
         getStr d2 "version" = none ∨
         (∃ v, getStr d2 "version" = some v ∧ vMatch v = false)) :
    updateDep b vMatch pr cr eol d2 = Except.ok d2 ∧
    ∀ r, updateDeps b vMatch pr cr eol [d1, d2] = Except.ok r →
      ∃ d1r, r = [d1r, d2] := by
  have hfalse : depMatched b vMatch d2 = false := by
    unfold depMatched
    rcases h with h | ⟨i, hi, hne⟩ | h | h | ⟨v, hv, hvm⟩
    · simp [h]
    · simp [hi, hne]
    · cases hid : getStr d2 "id" with
      | none => simp
      | some i => simp [h]
    · cases hid : getStr d2 "id" with
      | none => simp
      | some i => simp [h]
    · cases hid : getStr d2 "id" with
      | none => simp
      | some i => simp [hv, hvm]
  have h2 := updateDep_unmatched b vMatch pr cr eol d2 hfalse
  refine ⟨h2, ?_⟩
  intro r hr
  unfold updateDeps at hr
  cases hf1 : updateDep b vMatch pr cr eol d1 with
  | error e => rw [hf1] at hr; simp at hr
  | ok d1r =>
    rw [hf1] at hr
    simp only [updateDeps, h2] at hr
    exact ⟨d1r, by cases hr; rfl⟩

/-- C3 witness: a concrete two-record list where the version pattern
matches only the first record; the second comes back untouched. -/
theorem update_skips_unmatched_records_witness :
    updateDep
      ⟨"p", "dep", "amd64", "newsha", "newuri", "2.0.0", "1\\.", "", "", "", "", "", "", ""⟩
      (fun v => decide (v = "1.1.0")) id id (fun _ _ => Except.error "no lookup")
      [("id", TVal.s "dep"), ("version", TVal.s "3.0.0"), ("uri", TVal.s "old")] =
      Except.ok [("id", TVal.s "dep"), ("version", TVal.s "3.0.0"), ("uri", TVal.s "old")] :=
  (update_skips_unmatched_records
    ⟨"p", "dep", "amd64", "newsha", "newuri", "2.0.0", "1\\.", "", "", "", "", "", "", ""⟩
    (fun v => decide (v = "1.1.0")) id id (fun _ _ => Except.error "no lookup")
    [("id", TVal.s "dep"), ("version", TVal.s "1.1.0")]
    [("id", TVal.s "dep"), ("version", TVal.s "3.0.0"), ("uri", TVal.s "old")]
    (Or.inr (Or.inr (Or.inr (Or.inr ⟨"3.0.0", by rfl, by decide⟩))))).1

/-- C1: a record matched by id, derived architecture and version pattern
that carries exactly one checksum-naming scheme has its checksums written
under the scheme already present on any successful update: with a `sha256`
key the bare new value lands there (and a supplied source checksum lands
bare under `source-sha256`) while no `checksum`/`source-checksum` key
appears; with a `checksum` key the `sha256:`-prefixed value lands there
(and a supplied source checksum lands prefixed under `source-checksum`)
while no `sha256`/`source-sha256` key appears. -/
theorem update_preserves_checksum_scheme (b : BuildModuleDependency)
    (vMatch : String → Bool) (pr cr : String → String)
    (eol : String → String → Except String String) (dep r : Rec)
    (hm : depMatched b vMatch dep = true)
    (hrun : updateDep b vMatch pr cr eol dep = Except.ok r) :
    ((lookupKey dep "sha256").isSome → lookupKey dep "checksum" = none →
      lookupKey dep "source-checksum" = none →
      lookupKey r "sha256" = some (TVal.s b.SHA256) ∧
      lookupKey r "checksum" = none ∧
      lookupKey r "source-checksum" = none ∧
      (b.SourceSHA256 ≠ "" →
        lookupKey r "source-sha256" = some (TVal.s b.SourceSHA256))) ∧
    ((lookupKey dep "checksum").isSome → lookupKey dep "sha256" = none →
      lookupKey dep "source-sha256" = none →
      lookupKey r "checksum" = some (TVal.s ("sha256:" ++ b.SHA256)) ∧
      lookupKey r "sha256" = none ∧
      lookupKey r "source-sha256" = none ∧
      (b.SourceSHA256 ≠ "" →
        lookupKey r "source-checksum" = some (TVal.s ("sha256:" ++ b.SourceSHA256)))) := by
  rw [updateDep_matched _ _ _ _ _ _ hm] at hrun
  have hl : ∀ kq, kq ≠ "eol-date" → kq ≠ "deprecation_date" →
      lookupKey r kq = lookupKey (applyFieldUpdates b pr cr dep).1 kq :=
    fun kq h1 h2 => matchedUpdate_ok_lookup b pr cr eol dep r kq hrun h1 h2
  constructor
  · intro hs hc hsc
    obtain ⟨e1, e2, e3, e4, _⟩ := applyFieldUpdates_legacy b pr cr dep hs
    refine ⟨?_, ?_, ?_, ?_⟩
    · rw [hl "sha256" (by decide) (by decide), e1]
    · rw [hl "checksum" (by decide) (by decide), e2, hc]
    · rw [hl "source-checksum" (by decide) (by decide), e3, hsc]
    · intro hsrc
      rw [hl "source-sha256" (by decide) (by decide), e4 hsrc]
  · intro hc hs hss
    obtain ⟨e1, e2, e3, e4, _⟩ := applyFieldUpdates_newFormat b pr cr dep hs hc
    refine ⟨?_, ?_, ?_, ?_⟩
    · rw [hl "checksum" (by decide) (by decide), e1]
    · rw [hl "sha256" (by decide) (by decide), e2]
    · rw [hl "source-sha256" (by decide) (by decide), e3, hss]
    · intro hsrc
      rw [hl "source-checksum" (by decide) (by decide), e4 hsrc]

/-- Concrete legacy-scheme update input for the C1 witness. -/
def bW1 : BuildModuleDependency :=
  ⟨"p", "dep", "amd64", "newsha", "newuri", "2.0", "", "", "", "", "", "src", "srcsha", ""⟩

/-- Concrete legacy-scheme record for the C1 witness. -/
def depW1 : Rec := [("id", TVal.s "dep"), ("version", TVal.s "1.0"), ("sha256", TVal.s "old")]

/-- The record `updateDep` produces from `depW1`. -/
def rW1 : Rec :=
  [("id", TVal.s "dep"), ("version", TVal.s "2.0"), ("sha256", TVal.s "newsha"),
   ("uri", TVal.s "newuri"), ("source-sha256", TVal.s "srcsha"), ("source", TVal.s "src")]

/-- C1 witness: a concrete legacy-scheme record after a concrete update. -/
theorem update_preserves_checksum_scheme_witness :
    lookupKey rW1 "sha256" = some (TVal.s "newsha") ∧
    lookupKey rW1 "checksum" = none ∧
    lookupKey rW1 "source-checksum" = none ∧
    lookupKey rW1 "source-sha256" = some (TVal.s "srcsha") :=
  have h := (update_preserves_checksum_scheme bW1 (fun _ => true) id id
    (fun _ _ => Except.error "x") depW1 rW1 (by rfl) (by rfl)).1 (by rfl) (by rfl) (by rfl)
  ⟨h.1, h.2.1, h.2.2.1, h.2.2.2 (by decide)⟩

/-- C8: for a matched record with an end-of-life lookup identifier
supplied, the updater consults the collaborator at (identifier, new
version); the detected format is the new scheme exactly when the record has
a `checksum` key and no `sha256` key; a non-empty returned date is stored
under `eol-date` in the new scheme and `deprecation_date` otherwise, and an
empty returned date leaves both end-of-life fields exactly as they were. -/
theorem update_eol_date_placement (b : BuildModuleDependency) (vMatch : String → Bool)
    (pr cr : String → String) (eol : String → String → Except String String) (dep : Rec)
    (hm : depMatched b vMatch dep = true) (he : b.EolID ≠ "") :
    (applyFieldUpdates b pr cr dep).2 =
      (!(lookupKey dep "sha256").isSome && (lookupKey dep "checksum").isSome) ∧
    (∀ d, eol b.EolID b.Version = Except.ok d → d ≠ "" →
      updateDep b vMatch pr cr eol dep =
        Except.ok (setKey (applyFieldUpdates b pr cr dep).1
          (if (applyFieldUpdates b pr cr dep).2 then "eol-date" else "deprecation_date")
          (TVal.s d))) ∧
    (∀ d, eol b.EolID b.Version = Except.ok d → d = "" →
      updateDep b vMatch pr cr eol dep = Except.ok (applyFieldUpdates b pr cr dep).1) ∧
    lookupKey (applyFieldUpdates b pr cr dep).1 "eol-date" = lookupKey dep "eol-date" ∧
    lookupKey (applyFieldUpdates b pr cr dep).1 "deprecation_date" =
      lookupKey dep "deprecation_date" := by
  refine ⟨applyFieldUpdates_flag b pr cr dep, ?_, ?_, ?_, ?_⟩
  · intro d hd hne
    rw [updateDep_matched _ _ _ _ _ _ hm]
    simp only [matchedUpdate, he, ne_eq, not_false_eq_true, if_true]
    rw [hd]
    simp only [hne, ne_eq, not_false_eq_true, if_true]
  · intro d hd hde
    rw [updateDep_matched _ _ _ _ _ _ hm]
    simp only [matchedUpdate, he, ne_eq, not_false_eq_true, if_true]
    rw [hd]
    simp [hde]
  · exact lookupKey_applyFieldUpdates_ne b pr cr dep "eol-date" (by decide) (by decide)
      (by decide) (by decide) (by decide) (by decide) (by decide) (by decide) (by decide)
      (by decide)
  · exact lookupKey_applyFieldUpdates_ne b pr cr dep "deprecation_date" (by decide)
      (by decide) (by decide) (by decide) (by decide) (by decide) (by decide) (by decide)
      (by decide) (by decide)

/-- Concrete new-scheme update input for the C8 witness. -/
def bW8 : BuildModuleDependency :=
  ⟨"p", "dep", "amd64", "newsha", "newuri", "2.0", "", "", "", "", "", "", "", "prod"⟩

/-- Concrete new-scheme record for the C8 witness. -/
def depW8 : Rec := [("id", TVal.s "dep"), ("version", TVal.s "1.0"), ("checksum", TVal.s "old")]

/-- The record `updateDep` produces from `depW8` with a looked-up date. -/
def rW8 : Rec :=
  [("id", TVal.s "dep"), ("version", TVal.s "2.0"),
   ("checksum", TVal.s "sha256:newsha"), ("uri", TVal.s "newuri"),
   ("eol-date", TVal.s "2030-01-01")]

/-- C8 witness: a concrete new-scheme record gets its looked-up date under
`eol-date`. -/
theorem update_eol_date_placement_witness :
    updateDep bW8 (fun _ => true) id id (fun _ _ => Except.ok "2030-01-01") depW8 =
      Except.ok rW8 :=
  have h := (update_eol_date_placement bW8 (fun _ => true) id id
    (fun _ _ => Except.ok "2030-01-01") depW8 (by rfl) (by decide)).2.1
    "2030-01-01" rfl (by decide)
  h.trans (by rfl)

/-- C10: a matched record carrying neither `sha256` nor `checksum` key
still gets `version` and `uri` set but no checksum key at all — the
supplied checksum is dropped — and is treated as legacy scheme afterwards:
a supplied source checksum is written bare under `source-sha256` and a
non-empty looked-up end-of-life date lands under `deprecation_date`. -/
theorem update_without_checksum_key_drops_checksum (b : BuildModuleDependency)
    (vMatch : String → Bool) (pr cr : String → String)
    (eol : String → String → Except String String) (dep r : Rec)
    (hm : depMatched b vMatch dep = true)
    (hs : lookupKey dep "sha256" = none) (hc : lookupKey dep "checksum" = none)
    (hrun : updateDep b vMatch pr cr eol dep = Except.ok r) :
    lookupKey r "version" = some (TVal.s b.Version) ∧
    lookupKey r "uri" = some (TVal.s b.URI) ∧
    lookupKey r "sha256" = none ∧
    lookupKey r "checksum" = none ∧
    (b.SourceSHA256 ≠ "" → lookupKey r "source-sha256" = some (TVal.s b.SourceSHA256)) ∧
    (applyFieldUpdates b pr cr dep).2 = false ∧
    (∀ d, b.EolID ≠ "" → eol b.EolID b.Version = Except.ok d → d ≠ "" →
      lookupKey r "deprecation_date" = some (TVal.s d)) := by
  rw [updateDep_matched _ _ _ _ _ _ hm] at hrun
  obtain ⟨e1, e2, e3, eflag⟩ := applyFieldUpdates_noChecksumKey b pr cr dep hs hc
  have hl : ∀ kq, kq ≠ "eol-date" → kq ≠ "deprecation_date" →
      lookupKey r kq = lookupKey (applyFieldUpdates b pr cr dep).1 kq :=
    fun kq h1 h2 => matchedUpdate_ok_lookup b pr cr eol dep r kq hrun h1 h2
  refine ⟨?_, ?_, ?_, ?_, ?_, eflag, ?_⟩
  · rw [hl "version" (by decide) (by decide), applyFieldUpdates_version]
  · rw [hl "uri" (by decide) (by decide), applyFieldUpdates_uri]
  · rw [hl "sha256" (by decide) (by decide), e1]
  · rw [hl "checksum" (by decide) (by decide), e2]
  · intro hsrc
    rw [hl "source-sha256" (by decide) (by decide), e3 hsrc]
  · intro d he hd hne
    have hr := matchedUpdate_eol_write b pr cr eol dep r d hrun he hd hne
    rw [hr, eflag]
    simp only [Bool.false_eq_true, if_false, ite_false]
    exact lookupKey_setKey_same _ _ _

/-- Concrete no-checksum-key update input for the C10 witness. -/
def bW10 : BuildModuleDependency :=
  ⟨"p", "dep", "amd64", "newsha", "newuri", "2.0", "", "", "", "", "", "", "srcsha", "prod"⟩

/-- Concrete record with neither checksum key for the C10 witness. -/
def depW10 : Rec := [("id", TVal.s "dep"), ("version", TVal.s "1.0")]

/-- The record `updateDep` produces from `depW10`. -/
def rW10 : Rec :=
  [("id", TVal.s "dep"), ("version", TVal.s "2.0"), ("uri", TVal.s "newuri"),
   ("source-sha256", TVal.s "srcsha"), ("deprecation_date", TVal.s "2030-01-01")]

/-- C10 witness: the concrete record gains version, uri, a bare
`source-sha256` and a `deprecation_date`, and no checksum key. -/
theorem update_without_checksum_key_drops_checksum_witness :
    lookupKey rW10 "version" = some (TVal.s "2.0") ∧
    lookupKey rW10 "uri" = some (TVal.s "newuri") ∧
    lookupKey rW10 "sha256" = none ∧
    lookupKey rW10 "checksum" = none ∧
    lookupKey rW10 "source-sha256" = some (TVal.s "srcsha") ∧
    lookupKey rW10 "deprecation_date" = some (TVal.s "2030-01-01") :=
  have h := update_without_checksum_key_drops_checksum bW10 (fun _ => true) id id
    (fun _ _ => Except.ok "2030-01-01") depW10 rW10 (by rfl) (by rfl) (by rfl) (by rfl)
  ⟨h.1, h.2.1, h.2.2.1, h.2.2.2.1, h.2.2.2.2.1 (by decide),
   h.2.2.2.2.2.2 "2030-01-01" (by decide) rfl (by decide)⟩

theorem getStr_eq_some (r : Rec) (k s : String) :
    getStr r k = some s ↔ lookupKey r k = some (TVal.s s) := by
  unfold getStr
  cases h : lookupKey r k with
  | none => simp
  | some v => cases v <;> simp

/-- The capture of the first entry of the `purls` sequence on which the
`arch=(.*)` regex matches, per the spec's step (3). -/
def firstCaptureIn : List TVal → Option String
  | [] => none
  | TVal.s u :: rest =>
    match archCapture u with
    | some a => some a
    | none => firstCaptureIn rest
  | _ :: rest => firstCaptureIn rest

/-- Step (3) of the spec's precedence over a record. -/
def firstPurlsCapture (dep : Rec) : Option String :=
  match lookupKey dep "purls" with
  | some (TVal.arr l) => firstCaptureIn l
  | _ => none

/-- Modelled from the spec: the architecture-derivation precedence exactly
as the spec lists it — (1) explicit `arch` field; (2) the value captured by
`arch=(.*)` from the `purl` string field; (3) the capture from the first
matching entry of the `purls` sequence; (4) the default `amd64` — where a
step that does not produce a capture falls through to the next step. -/
def specArchPrecedence (dep : Rec) : String :=
  match getStr dep "arch" with
  | some a => a
  | none =>
    match (getStr dep "purl").bind (fun p => archCapture p) with
    | some a => a
    | none =>
      match firstPurlsCapture dep with
      | some a => a
      | none => "amd64"

/-- C2 counterexample: a record whose `purl` string carries no `arch=`
capture but whose `purls` entry does.  The code returns the default
`amd64` without consulting `purls`; the spec's precedence list yields
`arm64`. -/
theorem dependencyArch_precedence_counterexample :
    dependencyArch
      [("purl", TVal.s "pkg:generic/x@1"),
       ("purls", TVal.arr [TVal.s "pkg:generic/x@1?arch=arm64"])] = "amd64" ∧
    specArchPrecedence
      [("purl", TVal.s "pkg:generic/x@1"),
       ("purls", TVal.arr [TVal.s "pkg:generic/x@1?arch=arm64"])] = "arm64" ∧
    ("amd64" : String) ≠ "arm64" :=
  ⟨rfl, rfl, by decide⟩

/-- C2 (amended): the architecture is derived per record as (1) the
explicit string `arch` field; (2) when `purl` is a string, its `arch=(.*)`
capture when the regex matches and otherwise the default `amd64`, with the
`purls` sequence never consulted; (3) when `purl` is absent or not a
string and `purls` is a sequence, the scan that returns the first
non-empty per-entry result (capture, or `amd64` for a string entry with no
match); (4) the default `amd64`.  A record with
`purl = "pkg:generic/x@1?arch=arm64"` and no explicit `arch` field derives
`arm64`, never `amd64`. -/
theorem getStr_none_cases (r : Rec) (k : String) (h : getStr r k = none) :
    lookupKey r k = none ∨ ∃ v, lookupKey r k = some v ∧ ∀ a, v ≠ TVal.s a := by
  cases hl : lookupKey r k with
  | none => exact Or.inl rfl
  | some v =>
    cases v with
    | s a => rw [(getStr_eq_some r k a).mpr hl] at h; cases h
    | b x => exact Or.inr ⟨TVal.b x, rfl, fun a => by simp⟩
    | arr l => exact Or.inr ⟨TVal.arr l, rfl, fun a => by simp⟩
    | tbl t => exact Or.inr ⟨TVal.tbl t, rfl, fun a => by simp⟩

theorem dependencyArch_arch_none (dep : Rec) (harch : getStr dep "arch" = none) :
    dependencyArch dep =
      match lookupKey dep "purl" with
      | some (TVal.s p) => archFromPURL p
      | _ =>
        match lookupKey dep "purls" with
        | some (TVal.arr l) => archFromPurlsList l
        | _ => defaultArch := by
  unfold dependencyArch
  rcases getStr_none_cases dep "arch" harch with ha | ⟨v, ha, hv⟩
  · rw [ha]
  · cases v with
    | s a => exact absurd rfl (hv a)
    | b x => rw [ha]
    | arr l => rw [ha]
    | tbl t => rw [ha]

theorem dependencyArch_purls_fall (dep : Rec) (harch : getStr dep "arch" = none)
    (hpurl : getStr dep "purl" = none) :
    dependencyArch dep =
      match lookupKey dep "purls" with
      | some (TVal.arr l) => archFromPurlsList l
      | _ => defaultArch := by
  rw [dependencyArch_arch_none dep harch]
  rcases getStr_none_cases dep "purl" hpurl with hp | ⟨v, hp, hv⟩
  · rw [hp]
  · cases v with
    | s a => exact absurd rfl (hv a)
    | b x => rw [hp]
    | arr l => rw [hp]
    | tbl t => rw [hp]

/-- C2 (amended): the architecture is derived per record as (1) the
explicit string `arch` field; (2) when `purl` is a string, its `arch=(.*)`
capture when the regex matches and otherwise the default `amd64`, with the
`purls` sequence never consulted; (3) when `purl` is absent or not a
string and `purls` is a sequence, the scan that returns the first
non-empty per-entry result (capture, or `amd64` for a string entry with no
match); (4) the default `amd64`.  A record with
`purl = "pkg:generic/x@1?arch=arm64"` and no explicit `arch` field derives
`arm64`, never `amd64`. -/
theorem dependencyArch_precedence (dep : Rec) :
    (∀ a, getStr dep "arch" = some a → dependencyArch dep = a) ∧
    (getStr dep "arch" = none → ∀ p, getStr dep "purl" = some p →
      dependencyArch dep = archFromPURL p ∧
      (∀ a, archCapture p = some a → archFromPURL p = a) ∧
      (archCapture p = none → archFromPURL p = "amd64")) ∧
    (getStr dep "arch" = none → getStr dep "purl" = none →
      ∀ l, lookupKey dep "purls" = some (TVal.arr l) →
        dependencyArch dep = archFromPurlsList l) ∧
    (getStr dep "arch" = none → getStr dep "purl" = none →
      (∀ l, lookupKey dep "purls" ≠ some (TVal.arr l)) →
      dependencyArch dep = "amd64") ∧
    dependencyArch [("purl", TVal.s "pkg:generic/x@1?arch=arm64")] = "arm64" := by
  refine ⟨?_, ?_, ?_, ?_, rfl⟩
  · intro a ha
    rw [getStr_eq_some] at ha
    simp [dependencyArch, ha]
  · intro harch p hp
    rw [getStr_eq_some] at hp
    refine ⟨?_, ?_, ?_⟩
    · rw [dependencyArch_arch_none dep harch, hp]
    · intro a hcap
      simp [archFromPURL, hcap]
    · intro hcap
      simp [archFromPURL, hcap, defaultArch]
  · intro harch hpurl l hpl
    rw [dependencyArch_purls_fall dep harch hpurl, hpl]
  · intro harch hpurl hnoarr
    rw [dependencyArch_purls_fall dep harch hpurl]
    cases hps : lookupKey dep "purls" with
    | none => rfl
    | some v =>
      cases v with
      | s a => rfl
      | b x => rfl
      | arr l => exact absurd hps (hnoarr l)
      | tbl t => rfl

/-- C2 witness: the explicit `arch` field wins, and the canonical
`arm64`-PURL record derives `arm64`. -/
theorem dependencyArch_precedence_witness :
    dependencyArch [("arch", TVal.s "s390x")] = "s390x" ∧
    dependencyArch [("purl", TVal.s "pkg:generic/x@1?arch=arm64")] = "arm64" :=
  ⟨(dependencyArch_precedence [("arch", TVal.s "s390x")]).1 "s390x" rfl,
   (dependencyArch_precedence [("arch", TVal.s "s390x")]).2.2.2.2⟩

/-- C9: the vendor filter keeps exactly the records whose string `id` ends
with `-<vendor>` for some vendor of the caller-supplied allow-list,
preserving their relative order (it is the list `filter` by that
predicate); the empty allow-list yields the empty dependency list; every
surviving record satisfies the predicate, so records lacking a string `id`
are always removed; and on a well-formed document the mutation replaces
`metadata.dependencies` by exactly the filtered list. -/
theorem vendor_filter_keeps_allow_listed (vendors : List String) (deps : List Rec) :
    removeDepsUnlessVendor vendors deps =
      deps.filter (fun dep => vendorKeep vendors dep) ∧
    removeDepsUnlessVendor [] deps = [] ∧
    (removeDepsUnlessVendor vendors deps).all (fun dep => vendorKeep vendors dep) = true ∧
    (∀ doc metadata depsRaw deps2,
      lookupKey doc "metadata" = some (TVal.tbl metadata) →
      lookupKey metadata "dependencies" = some (TVal.arr depsRaw) →
      asTables depsRaw = some deps2 →
      removeDependenciesUnlessInVendorList vendors doc =
        setKey doc "metadata" (TVal.tbl (setKey metadata "dependencies"
          (TVal.arr ((deps2.filter (fun dep => vendorKeep vendors dep)).map TVal.tbl))))) := by
  have hfil : ∀ (vs : List String) (ds : List Rec),
      removeDepsUnlessVendor vs ds = ds.filter (fun dep => vendorKeep vs dep) := by
    intro vs ds
    induction ds with
    | nil => rfl
    | cons d rest ih =>
      by_cases h : vendorKeep vs d
      · simp [removeDepsUnlessVendor, h, List.filter_cons, ih]
      · simp [removeDepsUnlessVendor, h, List.filter_cons, ih]
  have hempty : ∀ d : Rec, vendorKeep ([] : List String) d = false := by
    intro d
    unfold vendorKeep
    cases h : getStr d "id" with
    | none => rfl
    | some i => rfl
  refine ⟨hfil vendors deps, ?_, ?_, ?_⟩
  · rw [hfil]
    simp [hempty]
  · rw [hfil]
    simp only [List.all_eq_true]
    intro d hd
    exact (List.mem_filter.mp hd).2
  · intro doc metadata depsRaw deps2 h1 h2 h3
    simp [removeDependenciesUnlessInVendorList, h1, h2, h3, hfil]

/-- The canonical four-record fixture for the C9 witness: two ids ending
in `-foo`, one in `-baz`, one in neither. -/
def depsW9 : List Rec :=
  [[("id", TVal.s "jdk-foo")], [("id", TVal.s "jre-foo")],
   [("id", TVal.s "jdk-baz")], [("version", TVal.s "1.0")]]

/-- C9 witness: the fixture filtered by `{}` keeps nothing, by `{foo}`
keeps the two `-foo` records in order, by `{baz}` keeps one. -/
theorem vendor_filter_keeps_allow_listed_witness :
    removeDepsUnlessVendor [] depsW9 = [] ∧
    removeDepsUnlessVendor ["foo"] depsW9 =
      [[("id", TVal.s "jdk-foo")], [("id", TVal.s "jre-foo")]] ∧
    removeDepsUnlessVendor ["baz"] depsW9 = [[("id", TVal.s "jdk-baz")]] :=
  ⟨(vendor_filter_keeps_allow_listed ["foo"] depsW9).2.1,
   ((vendor_filter_keeps_allow_listed ["foo"] depsW9).1).trans (by rfl),
   ((vendor_filter_keeps_allow_listed ["baz"] depsW9).1).trans (by rfl)⟩

theorem splitAfterNl_ne_nil (cs : List Char) : splitAfterNl cs ≠ [] := by
  cases cs with
  | nil => simp [splitAfterNl]
  | cons c rest =>
    unfold splitAfterNl
    by_cases h : c = '\n'
    · simp [h]
    · simp only [h, if_false, ite_false]
      cases splitAfterNl rest <;> simp

theorem splitAfterNl_flatten (cs : List Char) : (splitAfterNl cs).flatten = cs := by
  induction cs with
  | nil => rfl
  | cons c rest ih =>
    unfold splitAfterNl
    by_cases h : c = '\n'
    · simp [h, ih]
    · cases hs : splitAfterNl rest with
      | nil => exact absurd hs (splitAfterNl_ne_nil rest)
      | cons l ls =>
        rw [hs] at ih
        simp only [List.flatten_cons] at ih
        simp [h, hs, ih]

theorem updateTOMLFileT_decode_none (decode : String → Option Doc)
    (encode : Doc → Option String) (f : Doc → Doc) (fs : FileSys)
    (hdec : decode fs.content = none) :
    updateTOMLFileT decode encode f fs =
      (Except.error "unable to decode md", [FOp.statOp, FOp.readOp, FOp.decodeOp]) := by
  simp only [updateTOMLFileT, hdec]

theorem updateTOMLFileT_encode_none (decode : String → Option Doc)
    (encode : Doc → Option String) (f : Doc → Doc) (fs : FileSys) (md : Doc)
    (hdec : decode fs.content = some md) (henc : encode (f md) = none) :
    updateTOMLFileT decode encode f fs =
      (Except.error "unable to encode md",
       [FOp.statOp, FOp.readOp, FOp.decodeOp, FOp.encodeOp]) := by
  simp only [updateTOMLFileT, hdec, henc]

theorem updateTOMLFileT_ok (decode : String → Option Doc) (encode : Doc → Option String)
    (f : Doc → Doc) (fs : FileSys) (md : Doc) (body : String)
    (hdec : decode fs.content = some md) (henc : encode (f md) = some body) :
    updateTOMLFileT decode encode f fs =
      (Except.ok (FileSys.mk (leadingComments fs.content ++ body) fs.mode),
       [FOp.statOp, FOp.readOp, FOp.decodeOp, FOp.encodeOp, FOp.writeOp]) := by
  simp only [updateTOMLFileT, hdec, henc]

theorem leadingCommentLines_spec (i : Nat) (ls : List (List Char)) :
    ∃ n, n ≤ ls.length ∧ leadingCommentLines i ls = ls.take n ∧
      (∀ j, j < n → commentLine (i + j) (ls.getD j []) = true) ∧
      (n = ls.length ∨ commentLine (i + n) (ls.getD n []) = false) := by
  induction ls generalizing i with
  | nil =>
    refine ⟨0, by simp, by simp [leadingCommentLines], ?_, Or.inl rfl⟩
    intro j hj
    cases hj
  | cons l rest ih =>
    by_cases h : commentLine i l
    · obtain ⟨n, hn, heq, hall, hlast⟩ := ih (i + 1)
      refine ⟨n + 1, by simpa using hn, ?_, ?_, ?_⟩
      · simp only [leadingCommentLines, h, if_true, List.take]
        rw [heq]
      · intro j hj
        cases j with
        | zero => simpa using h
        | succ j2 =>
          have := hall j2 (by omega)
          simpa [Nat.add_assoc, Nat.add_comm 1 j2] using this
      · rcases hlast with hl | hl
        · exact Or.inl (by simp [hl])
        · refine Or.inr ?_
          simpa [Nat.add_assoc, Nat.add_comm 1 n] using hl
    · refine ⟨0, by simp, ?_, ?_, Or.inr (by simpa using h)⟩
      · simp [leadingCommentLines, h]
      · intro j hj
        cases hj

/-- C6: the preserved leading-comment prefix is exactly the maximal run of
initial lines in which every line starts with `#` or is blank and not the
very first line (the scan stops at the first other line); the prefix is a
prefix of the file; and any successful patch writes exactly that prefix
followed by the re-encoded body. -/
theorem leading_comment_prefix_exact (c : String) :
    (∃ n, n ≤ (splitAfterNl c.data).length ∧
      leadingCommentLines 0 (splitAfterNl c.data) = (splitAfterNl c.data).take n ∧
      (∀ j, j < n → commentLine j ((splitAfterNl c.data).getD j []) = true) ∧
      (n = (splitAfterNl c.data).length ∨
        commentLine n ((splitAfterNl c.data).getD n []) = false)) ∧
    (∃ r, c = leadingComments c ++ r) ∧
    (∀ decode encode f fs fs2, fs.content = c →
      updateTOMLFile decode encode f fs = Except.ok fs2 →
      ∃ md body, decode c = some md ∧ encode (f md) = some body ∧
        fs2.content = leadingComments c ++ body) := by
  obtain ⟨n, hn, heq, hall, hlast⟩ := leadingCommentLines_spec 0 (splitAfterNl c.data)
  refine ⟨⟨n, hn, heq, ?_, ?_⟩, ?_, ?_⟩
  · intro j hj
    have := hall j hj
    rwa [Nat.zero_add] at this
  · rcases hlast with hl | hl
    · exact Or.inl hl
    · rw [Nat.zero_add] at hl
      exact Or.inr hl
  · refine ⟨String.mk (((splitAfterNl c.data).drop n).flatten), ?_⟩
    apply String.ext
    rw [String.data_append]
    show c.data = (String.mk (leadingCommentLines 0 (splitAfterNl c.data)).flatten).data ++ _
    rw [heq]
    show c.data = ((splitAfterNl c.data).take n).flatten ++ ((splitAfterNl c.data).drop n).flatten
    rw [← List.flatten_append, List.take_append_drop, splitAfterNl_flatten]
  · intro decode encode f fs fs2 hc hrun
    subst hc
    unfold updateTOMLFile at hrun
    cases hdec : decode fs.content with
    | none =>
      rw [updateTOMLFileT_decode_none decode encode f fs hdec] at hrun
      simp at hrun
    | some md =>
      cases henc : encode (f md) with
      | none =>
        rw [updateTOMLFileT_encode_none decode encode f fs md hdec henc] at hrun
        simp at hrun
      | some body =>
        rw [updateTOMLFileT_ok decode encode f fs md body hdec henc] at hrun
        simp only [Except.ok.injEq] at hrun
        exact ⟨md, body, rfl, henc, by rw [← hrun]⟩

/-- Concrete content for the C6 witness: a `#` header line, a blank line,
then the document body. -/
def cW6 : String := "# header\n\nx = 1\n"

/-- C6 witness: a concrete successful patch keeps the two-line comment
prefix byte for byte in front of the re-encoded body. -/
theorem leading_comment_prefix_exact_witness :
    ∃ md body,
      (fun s => some ([("k", TVal.s s)] : Doc)) cW6 = some md ∧
      (fun (_ : Doc) => some "x = 2\n") (id md) = some body ∧
      (FileSys.mk "# header\n\nx = 2\n" 420).content = leadingComments cW6 ++ body :=
  (leading_comment_prefix_exact cW6).2.2 (fun s => some ([("k", TVal.s s)] : Doc))
    (fun (_ : Doc) => some "x = 2\n") id (FileSys.mk cW6 420)
    (FileSys.mk "# header\n\nx = 2\n" 420) rfl (by rfl)

/-- Structural analysis of one `BuildModuleDependency.Update` run: whenever
an error is reported the file state is returned unchanged, and a silent run
implies every fallible step succeeded and the written file keeps the
original mode. -/
theorem bmdUpdate_analysis (b : BuildModuleDependency) (env : UpdateEnv) (fs : FileSys) :
    ((bmdUpdate b env fs).2.isSome → (bmdUpdate b env fs).1 = fs) ∧
    ((bmdUpdate b env fs).2 = none →
      (bmdUpdate b env fs).1.mode = fs.mode ∧
      (∃ vm, env.compileVersion = some vm) ∧
      (∃ cr, env.compileCpe = some cr) ∧
      (∃ pr, env.compilePurl = some pr) ∧
      env.readOk = true ∧
      (∃ md, env.decode fs.content = some md ∧
        ∃ t, lookupKey md "metadata" = some (TVal.tbl t) ∧
        ∃ l, lookupKey t "dependencies" = some (TVal.arr l) ∧
        ∃ deps, asTables l = some deps ∧
        ∀ vm cr pr, env.compileVersion = some vm → env.compileCpe = some cr →
          env.compilePurl = some pr →
          ∃ deps2, updateDeps b vm pr cr env.eol deps = Except.ok deps2)) := by
  simp only [bmdUpdate]
  split
  next => exact ⟨fun _ => rfl, fun h => by cases h⟩
  next vm hvm =>
  split
  next => exact ⟨fun _ => rfl, fun h => by cases h⟩
  next cr hcr =>
  split
  next => exact ⟨fun _ => rfl, fun h => by cases h⟩
  next pr hpr =>
  split
  next hro => exact ⟨fun _ => rfl, fun h => by cases h⟩
  next hro =>
  have hroTrue : env.readOk = true := by
    revert hro
    cases env.readOk <;> simp
  split
  next hdec => exact ⟨fun _ => rfl, fun h => by cases h⟩
  next md hdec =>
  split
  next hmet => exact ⟨fun _ => rfl, fun h => by cases h⟩
  case h_3 => exact ⟨fun _ => rfl, fun h => by cases h⟩
  next t hmet =>
  split
  next hdep => exact ⟨fun _ => rfl, fun h => by cases h⟩
  case h_3 => exact ⟨fun _ => rfl, fun h => by cases h⟩
  next l hdep =>
  split
  next hat => exact ⟨fun _ => rfl, fun h => by cases h⟩
  next deps hat =>
  split
  next e hud => exact ⟨fun _ => rfl, fun h => by cases h⟩
  next deps2 hud =>
  split
  next henc => exact ⟨fun _ => rfl, fun h => by cases h⟩
  next body henc =>
  constructor
  · intro h
    simp at h
  · intro hnone
    refine ⟨rfl, ⟨vm, hvm⟩, ⟨cr, hcr⟩, ⟨pr, hpr⟩, hroTrue,
      md, hdec, t, hmet, l, hdep, deps, hat, ?_⟩
    intro vm2 cr2 pr2 hv2 hc2 hp2
    rw [hvm] at hv2
    rw [hcr] at hc2
    rw [hpr] at hp2
    cases hv2
    cases hc2
    cases hp2
    exact ⟨deps2, hud⟩

/-- A fully-succeeding environment over an empty dependency list, used by
the C7 and C5 witnesses. -/
def envW7 : UpdateEnv :=
  ⟨some (fun _ => true), some id, some id, true,
   fun _ => some [("metadata", TVal.tbl [("dependencies", TVal.arr [])])],
   fun _ => some "x = 2\n", fun _ _ => Except.ok ""⟩

/-- C7: after a successful update the file on disk has the same mode bits
it had before the operation — the generic document patcher `UpdateTOMLFile`
writes back with the mode captured by stat before reading, and
`BuildModuleDependency.Update` writes to the just-read (hence existing)
file, whose permissions `os.WriteFile` leaves unchanged. -/
theorem update_write_mode (decode : String → Option Doc) (encode : Doc → Option String)
    (f : Doc → Doc) (fs fs2 : FileSys) (b : BuildModuleDependency) (env : UpdateEnv)
    (fs3 : FileSys) :
    (updateTOMLFile decode encode f fs = Except.ok fs2 → fs2.mode = fs.mode) ∧
    ((bmdUpdate b env fs3).2 = none → (bmdUpdate b env fs3).1.mode = fs3.mode) := by
  constructor
  · intro h
    unfold updateTOMLFile at h
    cases hdec : decode fs.content with
    | none =>
      rw [updateTOMLFileT_decode_none decode encode f fs hdec] at h
      simp at h
    | some md =>
      cases henc : encode (f md) with
      | none =>
        rw [updateTOMLFileT_encode_none decode encode f fs md hdec henc] at h
        simp at h
      | some body =>
        rw [updateTOMLFileT_ok decode encode f fs md body hdec henc] at h
        simp only [Except.ok.injEq] at h
        rw [← h]
  · intro h
    exact ((bmdUpdate_analysis b env fs3).2 h).1

/-- C7 witness: a concrete patcher run keeps mode `0640`, and a concrete
successful `Update` run on a mode-`0600` file leaves mode `0600`. -/
theorem update_write_mode_witness :
    (FileSys.mk (leadingComments "x = 1\n" ++ "y = 2\n") 0o640).mode =
      (FileSys.mk "x = 1\n" 0o640).mode ∧
    (bmdUpdate bW1 envW7 (FileSys.mk "x = 1\n" 0o600)).1.mode =
      (FileSys.mk "x = 1\n" 0o600).mode :=
  have h := update_write_mode (fun _ => some ([] : Doc)) (fun _ => some "y = 2\n") id
    (FileSys.mk "x = 1\n" 0o640)
    (FileSys.mk (leadingComments "x = 1\n" ++ "y = 2\n") 0o640) bW1 envW7
    (FileSys.mk "x = 1\n" 0o600)
  ⟨h.1 (by rfl), h.2 (by rfl)⟩

theorem updateTOMLFileT_ok_shape (decode : String → Option Doc)
    (encode : Doc → Option String) (f : Doc → Doc) (fs fs2 : FileSys)
    (h : (updateTOMLFileT decode encode f fs).1 = Except.ok fs2) :
    updateTOMLFileT decode encode f fs =
      (Except.ok fs2,
       [FOp.statOp, FOp.readOp, FOp.decodeOp, FOp.encodeOp, FOp.writeOp]) := by
  cases hdec : decode fs.content with
  | none =>
    rw [updateTOMLFileT_decode_none decode encode f fs hdec] at h
    simp at h
  | some md =>
    cases henc : encode (f md) with
    | none =>
      rw [updateTOMLFileT_encode_none decode encode f fs md hdec henc] at h
      simp at h
    | some body =>
      rw [updateTOMLFileT_ok decode encode f fs md body hdec henc] at h ⊢
      simp only [Except.ok.injEq] at h
      rw [h]

theorem multiUpdate_writes (decode : String → Option Doc) (encode : Doc → Option String)
    (fns : List (Doc → Doc)) :
    ∀ fs fs3, (multiUpdateTOMLFileT decode encode fns fs).1 = Except.ok fs3 →
      (multiUpdateTOMLFileT decode encode fns fs).2.count FOp.writeOp = fns.length := by
  induction fns with
  | nil => intro fs fs3 h; rfl
  | cons f fns ih =>
    intro fs fs3 h
    cases hres : (updateTOMLFileT decode encode f fs).1 with
    | error e =>
      have hT : updateTOMLFileT decode encode f fs =
          (Except.error e, (updateTOMLFileT decode encode f fs).2) := by
        rw [← hres]
      rw [multiUpdateTOMLFileT, hT] at h
      simp at h
    | ok fs2 =>
      have hT := updateTOMLFileT_ok_shape decode encode f fs fs2 hres
      rw [multiUpdateTOMLFileT, hT] at h ⊢
      simp only [List.count_append, List.length_cons]
      have := ih fs2 fs3 h
      rw [this]
      have hc : List.count FOp.writeOp
          [FOp.statOp, FOp.readOp, FOp.decodeOp, FOp.encodeOp, FOp.writeOp] = 1 := by rfl
      rw [hc, Nat.add_comm]

/-- C4 counterexample: two mutation functions fed to `MultiUpdateTOMLFILE`
on one file cause two full round-trips — the operation trace holds two
writes, not a single encode-and-write. -/
theorem multi_update_single_write_counterexample :
    ((multiUpdateTOMLFileT (fun _ => some ([] : Doc)) (fun _ => some "x = 1\n")
        [id, id] (FileSys.mk "" 420)).2.count FOp.writeOp = 2) ∧
    (2 : Nat) ≠ 1 :=
  ⟨rfl, by decide⟩

/-- C4 (amended): `MultiUpdateTOMLFILE` performs one full
stat/read/decode/encode/write round-trip per mutation function, in order,
through the file on disk: each successful single update contributes exactly
one write and the next function runs on the file just written, later
functions thus seeing the cumulative effect of earlier ones through the
persisted file; the first failure stops the sequence; a run that ends
successfully performs exactly one write per mutation function. -/
theorem multi_update_roundtrip_per_function (decode : String → Option Doc)
    (encode : Doc → Option String) (f : Doc → Doc) (fns : List (Doc → Doc))
    (fs : FileSys) :
    multiUpdateTOMLFileT decode encode [] fs = (Except.ok fs, []) ∧
    (∀ fs2, updateTOMLFile decode encode f fs = Except.ok fs2 →
      multiUpdateTOMLFileT decode encode (f :: fns) fs =
        ((multiUpdateTOMLFileT decode encode fns fs2).1,
         [FOp.statOp, FOp.readOp, FOp.decodeOp, FOp.encodeOp, FOp.writeOp] ++
           (multiUpdateTOMLFileT decode encode fns fs2).2)) ∧
    (∀ e ops, updateTOMLFileT decode encode f fs = (Except.error e, ops) →
      multiUpdateTOMLFileT decode encode (f :: fns) fs = (Except.error e, ops)) ∧
    (∀ fs3, (multiUpdateTOMLFileT decode encode fns fs).1 = Except.ok fs3 →
      (multiUpdateTOMLFileT decode encode fns fs).2.count FOp.writeOp = fns.length) := by
  refine ⟨rfl, ?_, ?_, ?_⟩
  · intro fs2 h
    have hT := updateTOMLFileT_ok_shape decode encode f fs fs2 h
    rw [multiUpdateTOMLFileT, hT]
  · intro e ops h
    rw [multiUpdateTOMLFileT, h]
  · exact fun fs3 h => multiUpdate_writes decode encode fns fs fs3 h

/-- C4 witness: a concrete two-function run counts two writes; a concrete
run whose decoder fails stops with the failing trace. -/
theorem multi_update_roundtrip_per_function_witness :
    ((multiUpdateTOMLFileT (fun _ => some ([] : Doc)) (fun _ => some "x = 1\n")
        [id, id] (FileSys.mk "" 420)).2.count FOp.writeOp = 2) ∧
    multiUpdateTOMLFileT (fun _ => (none : Option Doc)) (fun _ => some "x = 1\n")
        [id, id] (FileSys.mk "" 420) =
      (Except.error "unable to decode md", [FOp.statOp, FOp.readOp, FOp.decodeOp]) :=
  ⟨(multi_update_roundtrip_per_function (fun _ => some ([] : Doc))
      (fun _ => some "x = 1\n") id [id, id] (FileSys.mk "" 420)).2.2.2
      (FileSys.mk "x = 1\n" 420) (by rfl),
   (multi_update_roundtrip_per_function (fun _ => (none : Option Doc))
      (fun _ => some "x = 1\n") id [id] (FileSys.mk "" 420)).2.2.1
      "unable to decode md" [FOp.statOp, FOp.readOp, FOp.decodeOp] (by rfl)⟩

/-- C5: whenever a dependency-update run fails — a version/cpe/purl pattern
does not compile, the file cannot be read, decoding fails, `metadata` is
missing or not a table, `dependencies` is missing or not a sequence of
tables, or the end-of-life lookup returns an error — an error is reported
to the exit handler and the run returns before the write step, leaving the
file state unchanged. -/
theorem update_failures_abort_before_write (b : BuildModuleDependency) (env : UpdateEnv)
    (fs : FileSys) :
    ((bmdUpdate b env fs).2.isSome → (bmdUpdate b env fs).1 = fs) ∧
    (env.compileVersion = none → (bmdUpdate b env fs).2.isSome) ∧
    (env.compileCpe = none → (bmdUpdate b env fs).2.isSome) ∧
    (env.compilePurl = none → (bmdUpdate b env fs).2.isSome) ∧
    (env.readOk = false → (bmdUpdate b env fs).2.isSome) ∧
    (env.decode fs.content = none → (bmdUpdate b env fs).2.isSome) ∧
    (∀ md, env.decode fs.content = some md →
      (∀ t, lookupKey md "metadata" ≠ some (TVal.tbl t)) →
      (bmdUpdate b env fs).2.isSome) ∧
    (∀ md t, env.decode fs.content = some md →
      lookupKey md "metadata" = some (TVal.tbl t) →
      (∀ l, lookupKey t "dependencies" ≠ some (TVal.arr l)) →
      (bmdUpdate b env fs).2.isSome) ∧
    (∀ md t l, env.decode fs.content = some md →
      lookupKey md "metadata" = some (TVal.tbl t) →
      lookupKey t "dependencies" = some (TVal.arr l) → asTables l = none →
      (bmdUpdate b env fs).2.isSome) ∧
    (∀ md t l deps vm cr pr e, env.decode fs.content = some md →
      lookupKey md "metadata" = some (TVal.tbl t) →
      lookupKey t "dependencies" = some (TVal.arr l) → asTables l = some deps →
      env.compileVersion = some vm → env.compileCpe = some cr →
      env.compilePurl = some pr →
      updateDeps b vm pr cr env.eol deps = Except.error e →
      (bmdUpdate b env fs).2.isSome) := by
  obtain ⟨hunch, hok⟩ := bmdUpdate_analysis b env fs
  refine ⟨hunch, ?_, ?_, ?_, ?_, ?_, ?_, ?_, ?_, ?_⟩
  · intro hc
    cases ho : (bmdUpdate b env fs).2 with
    | some e => rfl
    | none =>
      obtain ⟨-, ⟨vm, hvm⟩, -⟩ := hok ho
      rw [hc] at hvm
      cases hvm
  · intro hc
    cases ho : (bmdUpdate b env fs).2 with
    | some e => rfl
    | none =>
      obtain ⟨-, -, ⟨cr, hcr⟩, -⟩ := hok ho
      rw [hc] at hcr
      cases hcr
  · intro hc
    cases ho : (bmdUpdate b env fs).2 with
    | some e => rfl
    | none =>
      obtain ⟨-, -, -, ⟨pr, hpr⟩, -⟩ := hok ho
      rw [hc] at hpr
      cases hpr
  · intro hc
    cases ho : (bmdUpdate b env fs).2 with
    | some e => rfl
    | none =>
      obtain ⟨-, -, -, -, hro, -⟩ := hok ho
      rw [hc] at hro
      cases hro
  · intro hc
    cases ho : (bmdUpdate b env fs).2 with
    | some e => rfl
    | none =>
      obtain ⟨-, -, -, -, -, md, hdec, -⟩ := hok ho
      rw [hc] at hdec
      cases hdec
  · intro md hdm hne
    cases ho : (bmdUpdate b env fs).2 with
    | some e => rfl
    | none =>
      obtain ⟨-, -, -, -, -, md2, hdec, t, hmet, -⟩ := hok ho
      rw [hdm] at hdec
      cases hdec
      exact absurd hmet (hne t)
  · intro md t hdm hmm hne
    cases ho : (bmdUpdate b env fs).2 with
    | some e => rfl
    | none =>
      obtain ⟨-, -, -, -, -, md2, hdec, t2, hmet, l, hdep, -⟩ := hok ho
      rw [hdm] at hdec
      cases hdec
      rw [hmm] at hmet
      cases hmet
      exact absurd hdep (hne l)
  · intro md t l hdm hmm hdd hat
    cases ho : (bmdUpdate b env fs).2 with
    | some e => rfl
    | none =>
      obtain ⟨-, -, -, -, -, md2, hdec, t2, hmet, l2, hdep, deps, hat2, -⟩ := hok ho
      rw [hdm] at hdec
      cases hdec
      rw [hmm] at hmet
      cases hmet
      rw [hdd] at hdep
      cases hdep
      rw [hat] at hat2
      cases hat2
  · intro md t l deps vm cr pr e hdm hmm hdd hat hvm hcr hpr hupd
    cases ho : (bmdUpdate b env fs).2 with
    | some e2 => rfl
    | none =>
      obtain ⟨-, -, -, -, -, md2, hdec, t2, hmet, l2, hdep, deps2, hat2, hall⟩ := hok ho
      rw [hdm] at hdec
      cases hdec
      rw [hmm] at hmet
      cases hmet
      rw [hdd] at hdep
      cases hdep
      rw [hat] at hat2
      cases hat2
      obtain ⟨deps3, hok3⟩ := hall vm cr pr hvm hcr hpr
      rw [hupd] at hok3
      cases hok3

/-- An otherwise-succeeding environment whose version pattern fails to
compile, for the C5 witness. -/
def envW5 : UpdateEnv :=
  ⟨none, some id, some id, true,
   fun _ => some [("metadata", TVal.tbl [("dependencies", TVal.arr [])])],
   fun _ => some "x = 2\n", fun _ _ => Except.ok ""⟩

/-- C5 witness: with a non-compiling version pattern the concrete run
reports an error and the file state is exactly the input state. -/
theorem update_failures_abort_before_write_witness :
    (bmdUpdate bW1 envW5 (FileSys.mk "x = 1\n" 420)).2.isSome = true ∧
    (bmdUpdate bW1 envW5 (FileSys.mk "x = 1\n" 420)).1 = FileSys.mk "x = 1\n" 420 :=
  have h := update_failures_abort_before_write bW1 envW5 (FileSys.mk "x = 1\n" 420)
  have hs := h.2.1 rfl
  ⟨hs, h.1 hs⟩

end LibpakTools
